import Mathlib

/-!
Verification of the rover simulation core:
a shallow embedding of the deterministic terrain noise (src/utils/noise.ts),
the chunk-based obstacle generator, the obstacle-aware surface-height query,
the collision resolver, the steering cost search, the stuck/recovery logic,
the suspension integrator and the hit handler (src/components/Rover.tsx),
together with the visual rock placement (src/components/ScatteredRocks.tsx).
JavaScript numbers are modelled as real numbers; Math.sin, Math.cos,
Math.sqrt, Math.floor and the fractional part are the corresponding real
functions.  Math.random values, being external entropy, are explicit
parameters.
-/

noncomputable section

open scoped Classical

namespace MarsRover

/-! ## Terrain noise (src/utils/noise.ts) -/

/-- Pseudo-random hash for 2D coordinates (noise.ts, `hash`). -/
def hash (x z : ℝ) : ℝ :=
  Int.fract (Real.sin (x * 12.9898 + z * 78.233) * 43758.5453123)

/-- Two-dimensional value noise with cubic Hermite interpolation (noise.ts,
`noise`). -/
def noise (x z : ℝ) : ℝ :=
  let iX : ℝ := (⌊x⌋ : ℤ)
  let iZ : ℝ := (⌊z⌋ : ℤ)
  let fX := x - iX
  let fZ := z - iZ
  let u := fX * fX * (3.0 - 2.0 * fX)
  let v := fZ * fZ * (3.0 - 2.0 * fZ)
  let bl := hash iX iZ
  let br := hash (iX + 1) iZ
  let tl := hash iX (iZ + 1)
  let tr := hash (iX + 1) (iZ + 1)
  (bl * (1.0 - u) + br * u) * (1.0 - v) + (tl * (1.0 - u) + tr * u) * v

/-- Fractal noise with domain warping (noise.ts, `simpleNoise`). -/
def simpleNoise (x z seed : ℝ) : ℝ :=
  let nx := x * 0.025
  let nz := z * 0.025
  let qx := noise (nx + seed) (nz + seed)
  let qz := noise (nx + 5.2 + seed) (nz + 1.3 + seed)
  let rx := noise (nx + 4.0 * qx + 1.7) (nz + 4.0 * qz + 9.2)
  let rz := noise (nx + 4.0 * qx + 8.3) (nz + 4.0 * qz + 2.8)
  let elevation := noise (nx + 4.0 * rx) (nz + 4.0 * rz)
      + 0.5 * noise (nx * 2.0) (nz * 2.0)
      + 0.25 * noise (nx * 4.0) (nz * 4.0)
  let h := (elevation - 0.7) * 6.0
  let h := h + Real.sin (nx * 0.4) * 1.2 + Real.cos (nz * 0.3) * 1.2
  h + noise (x * 0.8) (z * 0.8) * 0.6

/-- Base ground height (Rover.tsx, `getBaseTerrainHeight`). -/
def getBaseTerrainHeight (wx wz : ℝ) : ℝ :=
  simpleNoise wx wz 42 - 2.0

/-! ## Chunk obstacle generator (Rover.tsx, `getObstaclesInChunk`) -/

def CHUNK_SIZE : ℝ := 80

def RUNNABLE_ROCK_SCALE : ℝ := 2.5

/-- An obstacle record; the string id `cx:cz:i` is modelled as the triple. -/
structure Obstacle where
  id : ℤ × ℤ × ℕ
  x : ℝ
  z : ℝ
  radius : ℝ
  scale : ℝ

/-- One tier of `ROCK_LAYERS` (Rover.tsx). -/
structure RockLayer where
  count : ℕ
  minScale : ℝ
  maxScale : ℝ

def ROCK_LAYERS : List RockLayer :=
  [⟨1, 22, 32⟩, ⟨3, 9, 15⟩, ⟨25, 1.5, 3.5⟩]

/-- The chunk-seeded pseudo-random draw `frac(sin(seedBase+idx)*43758.5453)`. -/
def pseudoRandom (seedBase : ℝ) (idx : ℕ) : ℝ :=
  Int.fract (Real.sin (seedBase + (idx : ℝ)) * 43758.5453)

/-- The per-chunk scalar seed `offsetX*123.45 + offsetZ*678.91`. -/
def chunkSeedBase (cx cz : ℤ) : ℝ :=
  ((cx : ℝ) * CHUNK_SIZE) * 123.45 + ((cz : ℝ) * CHUNK_SIZE) * 678.91

/-- The pre-displacement world x of the i-th obstacle of a tier
(`(r1 - 0.5) * CHUNK_SIZE + offsetX`; every tier restarts its index at 0). -/
def baseWorldX (cx cz : ℤ) (i : ℕ) : ℝ :=
  (pseudoRandom (chunkSeedBase cx cz) (i * 3 + 0) - 0.5) * CHUNK_SIZE + (cx : ℝ) * CHUNK_SIZE

/-- The world z of the i-th obstacle of a tier (never displaced). -/
def baseWorldZ (cx cz : ℤ) (i : ℕ) : ℝ :=
  (pseudoRandom (chunkSeedBase cx cz) (i * 3 + 1) - 0.5) * CHUNK_SIZE + (cz : ℝ) * CHUNK_SIZE

/-- The i-th obstacle of one tier of a chunk (body of the generation loop,
including the corridor safe-zone displacement for scales above 8). -/
def layerObstacle (cx cz : ℤ) (layer : RockLayer) (i : ℕ) : Obstacle :=
  let seedBase := chunkSeedBase cx cz
  let r3 := pseudoRandom seedBase (i * 3 + 2)
  let s := layer.minScale + r3 * (layer.maxScale - layer.minScale)
  let r1 := pseudoRandom seedBase (i * 3 + 0)
  let wx0 := baseWorldX cx cz i
  let wz := baseWorldZ cx cz i
  let wx := if s > 8.0 ∧ |wx0| < 25.0 then
      (if wx0 ≥ 0 then 1 else -1) * (25.0 + r1 * 10)
    else wx0
  { id := (cx, cz, i), x := wx, z := wz, radius := s + 1.5, scale := s }

/-- The chunk obstacle generator (Rover.tsx `getObstaclesInChunk`): three
fixed tiers, each tier's index restarting at 0. -/
def getObstaclesInChunk (cx cz : ℤ) : List Obstacle :=
  ROCK_LAYERS.flatMap fun layer => (List.range layer.count).map (layerObstacle cx cz layer)

/-! ## Visual rock placement (ScatteredRocks.tsx) -/

/-- The (worldX, worldZ, scale) triple the i-th instanced rock is placed at
(ScatteredRocks.tsx placement loop, including the path-clearance logic). -/
def scatteredRockTriple (minScale maxScale chunkSize offsetX offsetZ : ℝ) (i : ℕ) :
    ℝ × ℝ × ℝ :=
  let seedBase := offsetX * 123.45 + offsetZ * 678.91
  let r3 := pseudoRandom seedBase (i * 3 + 2)
  let scale := minScale + r3 * (maxScale - minScale)
  let r1 := pseudoRandom seedBase (i * 3 + 0)
  let r2 := pseudoRandom seedBase (i * 3 + 1)
  let localX := (r1 - 0.5) * chunkSize
  let localZ := (r2 - 0.5) * chunkSize
  let worldX0 := localX + offsetX
  let worldZ := localZ + offsetZ
  let worldX := if scale > 8.0 ∧ |worldX0| < 25.0 then
      (if worldX0 ≥ 0 then 1 else -1) * (25.0 + r1 * 10)
    else worldX0
  (worldX, worldZ, scale)

/-- All placement triples of one ScatteredRocks chunk component. -/
def scatteredRocksPlacement (count : ℕ) (minScale maxScale chunkSize offsetX offsetZ : ℝ) :
    List (ℝ × ℝ × ℝ) :=
  (List.range count).map (scatteredRockTriple minScale maxScale chunkSize offsetX offsetZ)

/-! ## Facts about the generator -/

lemma pseudoRandom_nonneg (seedBase : ℝ) (idx : ℕ) : 0 ≤ pseudoRandom seedBase idx :=
  Int.fract_nonneg _

lemma pseudoRandom_lt_one (seedBase : ℝ) (idx : ℕ) : pseudoRandom seedBase idx < 1 :=
  Int.fract_lt_one _

lemma layerObstacle_scale (cx cz : ℤ) (layer : RockLayer) (i : ℕ) :
    (layerObstacle cx cz layer i).scale =
      layer.minScale + pseudoRandom (chunkSeedBase cx cz) (i * 3 + 2)
        * (layer.maxScale - layer.minScale) := rfl

lemma layerObstacle_x (cx cz : ℤ) (layer : RockLayer) (i : ℕ) :
    (layerObstacle cx cz layer i).x =
      if (layerObstacle cx cz layer i).scale > 8.0 ∧ |baseWorldX cx cz i| < 25.0 then
        (if baseWorldX cx cz i ≥ 0 then 1 else -1)
          * (25.0 + pseudoRandom (chunkSeedBase cx cz) (i * 3 + 0) * 10)
      else baseWorldX cx cz i := rfl

lemma layerObstacle_z (cx cz : ℤ) (layer : RockLayer) (i : ℕ) :
    (layerObstacle cx cz layer i).z = baseWorldZ cx cz i := rfl

/-- Claim C2: every generated obstacle of scale above 8.0 has |worldX| ≥ 25;
moreover a giant obstacle whose base draw lands inside the corridor is pushed
to the corridor edge on the side it originally fell on. -/
theorem corridor_exclusion (cx cz : ℤ) (obs : Obstacle)
    (hmem : obs ∈ getObstaclesInChunk cx cz) (hscale : obs.scale > 8.0) :
    |obs.x| ≥ 25.0 ∧
      ∀ layer i, (layerObstacle cx cz layer i).scale > 8.0 → |baseWorldX cx cz i| < 25.0 →
        ((0 ≤ baseWorldX cx cz i → (layerObstacle cx cz layer i).x ≥ 25.0) ∧
         (baseWorldX cx cz i < 0 → (layerObstacle cx cz layer i).x ≤ -25.0)) := by
  have push_bound : ∀ i : ℕ, (25.0 : ℝ) ≤ 25.0 + pseudoRandom (chunkSeedBase cx cz) (i * 3 + 0) * 10 := by
    intro i
    have h0 : 0 ≤ pseudoRandom (chunkSeedBase cx cz) (i * 3 + 0) := pseudoRandom_nonneg _ _
    nlinarith
  constructor
  · obtain ⟨layer, _, hobs⟩ := List.mem_flatMap.mp hmem
    obtain ⟨i, _, rfl⟩ := List.mem_map.mp hobs
    rw [layerObstacle_x]
    by_cases h25 : |baseWorldX cx cz i| < 25.0
    · rw [if_pos ⟨hscale, h25⟩]
      by_cases hge : baseWorldX cx cz i ≥ 0
      · rw [if_pos hge, one_mul, abs_of_nonneg (by linarith [push_bound i])]
        exact push_bound i
      · rw [if_neg hge, neg_one_mul, abs_neg, abs_of_nonneg (by linarith [push_bound i])]
        exact push_bound i
    · rw [if_neg (fun h => h25 h.2)]
      exact le_of_not_lt h25
  · intro layer i hs h25
    rw [layerObstacle_x, if_pos ⟨hs, h25⟩]
    constructor
    · intro hge
      rw [if_pos hge, one_mul]
      exact push_bound i
    · intro hlt
      rw [if_neg (not_le.mpr hlt), neg_one_mul]
      linarith [push_bound i]

/-- Witness for C2: at chunk (0,0) the gigantic-tier obstacle has scale
above 8.0, belongs to the generated list, and its |x| clears the corridor. -/
theorem corridor_exclusion_witness :
    (layerObstacle 0 0 ⟨1, 22, 32⟩ 0 ∈ getObstaclesInChunk 0 0) ∧
    (layerObstacle 0 0 ⟨1, 22, 32⟩ 0).scale > 8.0 ∧
    |(layerObstacle 0 0 ⟨1, 22, 32⟩ 0).x| ≥ 25.0 := by
  have hmem : layerObstacle 0 0 ⟨1, 22, 32⟩ 0 ∈ getObstaclesInChunk 0 0 := by
    refine List.mem_flatMap.mpr ⟨⟨1, 22, 32⟩, by simp [ROCK_LAYERS], ?_⟩
    exact List.mem_map.mpr ⟨0, by simp, rfl⟩
  have hscale : (layerObstacle 0 0 ⟨1, 22, 32⟩ 0).scale > 8.0 := by
    rw [layerObstacle_scale]
    have h0 : 0 ≤ pseudoRandom (chunkSeedBase 0 0) (0 * 3 + 2) := pseudoRandom_nonneg _ _
    show (22 : ℝ) + pseudoRandom (chunkSeedBase 0 0) (0 * 3 + 2) * (32 - 22) > 8.0
    nlinarith
  exact ⟨hmem, hscale, (corridor_exclusion 0 0 _ hmem hscale).1⟩

/-- Claim C7: the generator is deterministic (a pure function of the chunk
coordinate), and per tier the ScatteredRocks placement computes exactly the
rover generator's (worldX, worldZ, scale) triples. -/
theorem chunk_generation_deterministic_consistent (cx cz : ℤ) :
    getObstaclesInChunk cx cz = getObstaclesInChunk cx cz ∧
    (getObstaclesInChunk cx cz).map (fun o => (o.x, o.z, o.scale)) =
      ROCK_LAYERS.flatMap (fun layer =>
        scatteredRocksPlacement layer.count layer.minScale layer.maxScale CHUNK_SIZE
          ((cx : ℝ) * CHUNK_SIZE) ((cz : ℝ) * CHUNK_SIZE)) := by
  refine ⟨rfl, ?_⟩
  have key : ∀ layer : RockLayer,
      ((List.range layer.count).map (layerObstacle cx cz layer)).map
          (fun o => (o.x, o.z, o.scale)) =
        (List.range layer.count).map
          (scatteredRockTriple layer.minScale layer.maxScale CHUNK_SIZE
            ((cx : ℝ) * CHUNK_SIZE) ((cz : ℝ) * CHUNK_SIZE)) := by
    intro layer
    rw [List.map_map]
    rfl
  simp only [getObstaclesInChunk, scatteredRocksPlacement, List.map_flatMap]
  exact congrArg _ (funext key)

/-- Claim C10: each tier restarts its pseudo-random index at 0, so the
gigantic obstacle and the first massive obstacle of every chunk share the
same center, and the first large obstacle draws the same base position
(kept undisplaced since its scale is at most 3.5). -/
theorem per_layer_index_reset_alignment (cx cz : ℤ) :
    ∃ g m l : Obstacle,
      (getObstaclesInChunk cx cz)[0]? = some g ∧
      (getObstaclesInChunk cx cz)[1]? = some m ∧
      (getObstaclesInChunk cx cz)[4]? = some l ∧
      g.x = m.x ∧ g.z = m.z ∧
      l.x = baseWorldX cx cz 0 ∧ l.z = baseWorldZ cx cz 0 ∧ g.z = l.z := by
  refine ⟨layerObstacle cx cz ⟨1, 22, 32⟩ 0, layerObstacle cx cz ⟨3, 9, 15⟩ 0,
      layerObstacle cx cz ⟨25, 1.5, 3.5⟩ 0, ?_, ?_, ?_, ?_, ?_, ?_, ?_, ?_⟩
  · rfl
  · rfl
  · rfl
  · have h0 : 0 ≤ pseudoRandom (chunkSeedBase cx cz) (0 * 3 + 2) := pseudoRandom_nonneg _ _
    have hg : (layerObstacle cx cz ⟨1, 22, 32⟩ 0).scale > 8.0 := by
      rw [layerObstacle_scale]
      show (22 : ℝ) + pseudoRandom (chunkSeedBase cx cz) (0 * 3 + 2) * (32 - 22) > 8.0
      nlinarith
    have hm : (layerObstacle cx cz ⟨3, 9, 15⟩ 0).scale > 8.0 := by
      rw [layerObstacle_scale]
      show (9 : ℝ) + pseudoRandom (chunkSeedBase cx cz) (0 * 3 + 2) * (15 - 9) > 8.0
      nlinarith
    rw [layerObstacle_x, layerObstacle_x]
    by_cases h25 : |baseWorldX cx cz 0| < 25.0
    · rw [if_pos (show (layerObstacle cx cz ⟨1, 22, 32⟩ 0).scale > 8.0 ∧
            |baseWorldX cx cz 0| < 25.0 from ⟨hg, h25⟩),
          if_pos (show (layerObstacle cx cz ⟨3, 9, 15⟩ 0).scale > 8.0 ∧
            |baseWorldX cx cz 0| < 25.0 from ⟨hm, h25⟩)]
    · rw [if_neg (show ¬((layerObstacle cx cz ⟨1, 22, 32⟩ 0).scale > 8.0 ∧
            |baseWorldX cx cz 0| < 25.0) from fun h => h25 h.2),
          if_neg (show ¬((layerObstacle cx cz ⟨3, 9, 15⟩ 0).scale > 8.0 ∧
            |baseWorldX cx cz 0| < 25.0) from fun h => h25 h.2)]
  · rfl
  · have h1 : pseudoRandom (chunkSeedBase cx cz) (0 * 3 + 2) < 1 := pseudoRandom_lt_one _ _
    have hl : ¬ (layerObstacle cx cz ⟨25, 1.5, 3.5⟩ 0).scale > 8.0 := by
      rw [layerObstacle_scale]
      show ¬ (1.5 : ℝ) + pseudoRandom (chunkSeedBase cx cz) (0 * 3 + 2) * (3.5 - 1.5) > 8.0
      nlinarith
    rw [layerObstacle_x, if_neg (fun h => hl h.1)]
  · rfl
  · rfl

/-! ## Surface height query (Rover.tsx, `getSurfaceHeight`) -/

/-- One iteration of the small-rock loop of `getSurfaceHeight`. -/
def surfaceStep (wx wz : ℝ) (h : ℝ) (obs : Obstacle) : ℝ :=
  if obs.scale ≥ RUNNABLE_ROCK_SCALE then h
  else
    let dx := wx - obs.x
    let dz := wz - obs.z
    let distSq := dx * dx + dz * dz
    let physRadius := obs.scale * 0.9
    if distSq < physRadius * physRadius then
      let rockGroundH := getBaseTerrainHeight obs.x obs.z
      let rockCenterY := rockGroundH - obs.scale * 0.4
      let sphereH := Real.sqrt (max 0 (physRadius * physRadius - distSq))
      let surfaceY := rockCenterY + sphereH
      if surfaceY > h then surfaceY else h
    else h

/-- The surface height query over an explicit obstacle cache. -/
def getSurfaceHeight (cache : List Obstacle) (wx wz : ℝ) : ℝ :=
  cache.foldl (surfaceStep wx wz) (getBaseTerrainHeight wx wz)

/-- Horizontal distance from the query point to an obstacle center. -/
def horizontalDistance (wx wz : ℝ) (obs : Obstacle) : ℝ :=
  Real.sqrt ((wx - obs.x) * (wx - obs.x) + (wz - obs.z) * (wz - obs.z))

/-- The spec's hemisphere height over one obstacle: a hemisphere of radius
0.9*scale centered vertically at the obstacle's base terrain height minus
0.4*scale. -/
def hemisphereHeight (wx wz : ℝ) (obs : Obstacle) : ℝ :=
  getBaseTerrainHeight obs.x obs.z - obs.scale * 0.4 +
    Real.sqrt (obs.scale * 0.9 * (obs.scale * 0.9) -
      horizontalDistance wx wz obs * horizontalDistance wx wz obs)

/-- The spec's wording of the surface height: the maximum of the base height
and the hemisphere heights of every obstacle below the runnable threshold
whose horizontal distance to the query point is within 0.9*scale. -/
def surfaceHeightSpec (cache : List Obstacle) (wx wz : ℝ) : ℝ :=
  ((cache.filter fun obs =>
      decide (obs.scale < RUNNABLE_ROCK_SCALE ∧
        horizontalDistance wx wz obs < obs.scale * 0.9)).map
    (hemisphereHeight wx wz)).foldl max (getBaseTerrainHeight wx wz)

lemma surface_foldl_eq (wx wz : ℝ) (cache : List Obstacle)
    (hscale : ∀ obs ∈ cache, 0 ≤ obs.scale) (acc : ℝ) :
    cache.foldl (surfaceStep wx wz) acc =
      ((cache.filter fun obs =>
          decide (obs.scale < RUNNABLE_ROCK_SCALE ∧
            horizontalDistance wx wz obs < obs.scale * 0.9)).map
        (hemisphereHeight wx wz)).foldl max acc := by
  induction cache generalizing acc with
  | nil => rfl
  | cons obs rest ih =>
    have hobs : 0 ≤ obs.scale := hscale obs (by simp)
    have hrest : ∀ o ∈ rest, 0 ≤ o.scale := fun o ho => hscale o (by simp [ho])
    have hsqnn : 0 ≤ (wx - obs.x) * (wx - obs.x) + (wz - obs.z) * (wz - obs.z) :=
      add_nonneg (mul_self_nonneg _) (mul_self_nonneg _)
    rw [List.foldl_cons, List.filter_cons]
    by_cases h1 : obs.scale ≥ RUNNABLE_ROCK_SCALE
    · have hstep : surfaceStep wx wz acc obs = acc := by
        unfold surfaceStep
        rw [if_pos h1]
      have hpred : ¬ (obs.scale < RUNNABLE_ROCK_SCALE ∧
          horizontalDistance wx wz obs < obs.scale * 0.9) :=
        fun h => absurd h.1 (not_lt.mpr h1)
      rw [hstep, if_neg (by simpa using hpred)]
      exact ih hrest acc
    · have h1' : obs.scale < RUNNABLE_ROCK_SCALE := lt_of_not_le h1
      by_cases h2 : (wx - obs.x) * (wx - obs.x) + (wz - obs.z) * (wz - obs.z) <
          obs.scale * 0.9 * (obs.scale * 0.9)
      · have hR : 0 < obs.scale * 0.9 := by
          by_contra hle
          push_neg at hle
          have h0 : obs.scale * 0.9 = 0 := le_antisymm hle (mul_nonneg hobs (by norm_num))
          rw [h0, mul_zero] at h2
          linarith
        have hdlt : horizontalDistance wx wz obs < obs.scale * 0.9 := by
          unfold horizontalDistance
          calc Real.sqrt ((wx - obs.x) * (wx - obs.x) + (wz - obs.z) * (wz - obs.z))
              < Real.sqrt (obs.scale * 0.9 * (obs.scale * 0.9)) :=
                Real.sqrt_lt_sqrt hsqnn h2
            _ = obs.scale * 0.9 := Real.sqrt_mul_self (le_of_lt hR)
        have hpred : obs.scale < RUNNABLE_ROCK_SCALE ∧
            horizontalDistance wx wz obs < obs.scale * 0.9 := ⟨h1', hdlt⟩
        have hstep : surfaceStep wx wz acc obs =
            max acc (hemisphereHeight wx wz obs) := by
          unfold surfaceStep
          dsimp only
          rw [if_neg h1, if_pos h2]
          have hmax0 : max 0 (obs.scale * 0.9 * (obs.scale * 0.9) -
              ((wx - obs.x) * (wx - obs.x) + (wz - obs.z) * (wz - obs.z))) =
              obs.scale * 0.9 * (obs.scale * 0.9) -
                ((wx - obs.x) * (wx - obs.x) + (wz - obs.z) * (wz - obs.z)) :=
            max_eq_right (by linarith)
        -- hemisphereHeight with the distance squared restored
          have hhemi : hemisphereHeight wx wz obs =
              getBaseTerrainHeight obs.x obs.z - obs.scale * 0.4 +
                Real.sqrt (obs.scale * 0.9 * (obs.scale * 0.9) -
                  ((wx - obs.x) * (wx - obs.x) + (wz - obs.z) * (wz - obs.z))) := by
            unfold hemisphereHeight horizontalDistance
            rw [Real.mul_self_sqrt hsqnn]
          rw [hmax0, hhemi]
          rcases le_or_lt (getBaseTerrainHeight obs.x obs.z - obs.scale * 0.4 +
              Real.sqrt (obs.scale * 0.9 * (obs.scale * 0.9) -
                ((wx - obs.x) * (wx - obs.x) + (wz - obs.z) * (wz - obs.z)))) acc with h | h
          · rw [if_neg (not_lt.mpr h), max_eq_left h]
          · rw [if_pos h, max_eq_right (le_of_lt h)]
        rw [hstep, if_pos (by simpa using hpred), List.map_cons, List.foldl_cons]
        exact ih hrest _
      · have hpred : ¬ (obs.scale < RUNNABLE_ROCK_SCALE ∧
            horizontalDistance wx wz obs < obs.scale * 0.9) := by
          rintro ⟨-, hd⟩
          apply absurd hd
          apply not_lt.mpr
          unfold horizontalDistance
          calc obs.scale * 0.9
              = Real.sqrt (obs.scale * 0.9 * (obs.scale * 0.9)) :=
                (Real.sqrt_mul_self (mul_nonneg hobs (by norm_num))).symm
            _ ≤ Real.sqrt ((wx - obs.x) * (wx - obs.x) + (wz - obs.z) * (wz - obs.z)) :=
                Real.sqrt_le_sqrt (not_lt.mp h2)
        have hstep : surfaceStep wx wz acc obs = acc := by
          unfold surfaceStep
          dsimp only
          rw [if_neg h1, if_neg h2]
        rw [hstep, if_neg (by simpa using hpred)]
        exact ih hrest acc

lemma surfaceStep_le (wx wz acc : ℝ) (obs : Obstacle) :
    acc ≤ surfaceStep wx wz acc obs := by
  unfold surfaceStep
  dsimp only
  split_ifs with h1 h2 h3 <;> linarith

lemma foldl_surfaceStep_le (wx wz : ℝ) (l : List Obstacle) (acc : ℝ) :
    acc ≤ l.foldl (surfaceStep wx wz) acc := by
  induction l generalizing acc with
  | nil => exact le_refl acc
  | cons obs rest ih =>
    exact le_trans (surfaceStep_le wx wz acc obs) (ih _)

/-- Claim C9: for every point, `getSurfaceHeight` computes the maximum of the
base height-field value and the hemisphere heights of the runnable obstacles
within 0.9*scale of the point; in particular it never falls below the base
terrain height. -/
theorem surface_height_correct (cache : List Obstacle) (wx wz : ℝ)
    (hscale : ∀ obs ∈ cache, 0 ≤ obs.scale) :
    getSurfaceHeight cache wx wz = surfaceHeightSpec cache wx wz ∧
    getBaseTerrainHeight wx wz ≤ getSurfaceHeight cache wx wz :=
  ⟨surface_foldl_eq wx wz cache hscale _,
   foldl_surfaceStep_le wx wz cache (getBaseTerrainHeight wx wz)⟩

/-- A small (runnable) rock used as the C9 witness. -/
def witnessRock : Obstacle := ⟨(0, 0, 0), 3, 4, 2.5, 1⟩

/-- Witness for C9 at the single-rock cache [witnessRock] and the origin. -/
theorem surface_height_correct_witness :
    (∀ obs ∈ [witnessRock], 0 ≤ obs.scale) ∧
    (getSurfaceHeight [witnessRock] 0 0 = surfaceHeightSpec [witnessRock] 0 0 ∧
     getBaseTerrainHeight 0 0 ≤ getSurfaceHeight [witnessRock] 0 0) := by
  have h : ∀ obs ∈ [witnessRock], 0 ≤ obs.scale := by
    intro obs hm
    rw [List.mem_singleton] at hm
    subst hm
    norm_num [witnessRock]
  exact ⟨h, surface_height_correct [witnessRock] 0 0 h⟩

/-! ## Collision resolver (Rover.tsx position-update loop) -/

def roverRadius : ℝ := 0.8

/-- Resolution against one obstacle (one iteration of the collision loop). -/
def resolveObstacle (p : ℝ × ℝ) (obs : Obstacle) : ℝ × ℝ :=
  if obs.scale < RUNNABLE_ROCK_SCALE then p
  else
    let dx := p.1 - obs.x
    let dz := p.2 - obs.z
    let distSq := dx * dx + dz * dz
    let minDist := obs.scale * 0.85 + roverRadius
    if distSq < minDist * minDist then
      let dist := Real.sqrt distSq
      if dist > 0.001 then
        (obs.x + dx / dist * minDist, obs.z + dz / dist * minDist)
      else p
    else p

/-- The collision-resolution pass over the cached obstacles. -/
def resolveCollisions (obstacles : List Obstacle) (p : ℝ × ℝ) : ℝ × ℝ :=
  obstacles.foldl resolveObstacle p

/-- Two overlapping non-runnable obstacles used for claim C1. -/
def obsNear : Obstacle := ⟨(0, 0, 0), 0, 0, 4.5, 3⟩

def obsFar : Obstacle := ⟨(0, 0, 1), 5, 0, 4.5, 3⟩

lemma sqrt_1089 : Real.sqrt 1089 = 33 := by
  rw [show (1089 : ℝ) = 33 ^ 2 by norm_num, Real.sqrt_sq (by norm_num : (0 : ℝ) ≤ 33)]

lemma sqrt_400 : Real.sqrt 400 = 20 := by
  rw [show (400 : ℝ) = 20 ^ 2 by norm_num, Real.sqrt_sq (by norm_num : (0 : ℝ) ≤ 20)]

/-- Claim C1 counterexample: resolving the proposed position (1,0) against
obsNear and then obsFar leaves the agent at (1.65, 0), at distance 1.65 from
obsNear — far inside obsNear's minimum distance 3.35 (shortfall 1.7, not a
small epsilon). -/
theorem non_penetration_counterexample :
    resolveCollisions [obsNear, obsFar] (1, 0) = (1.65, 0) ∧
    Real.sqrt (((1.65 : ℝ) - obsNear.x) * ((1.65 : ℝ) - obsNear.x) +
        ((0 : ℝ) - obsNear.z) * ((0 : ℝ) - obsNear.z)) <
      obsNear.scale * 0.85 + roverRadius - 1 ∧
    RUNNABLE_ROCK_SCALE ≤ obsNear.scale := by
  have s1 : resolveObstacle (1, 0) obsNear = (3.35, 0) := by
    unfold resolveObstacle
    norm_num [obsNear, RUNNABLE_ROCK_SCALE, roverRadius, Real.sqrt_one]
  have s2 : resolveObstacle (3.35, 0) obsFar = (1.65, 0) := by
    unfold resolveObstacle
    norm_num [obsFar, RUNNABLE_ROCK_SCALE, roverRadius, sqrt_1089, sqrt_400]
  refine ⟨?_, ?_, by norm_num [RUNNABLE_ROCK_SCALE, obsNear]⟩
  · show List.foldl resolveObstacle (1, 0) [obsNear, obsFar] = (1.65, 0)
    rw [List.foldl_cons, s1, List.foldl_cons, s2, List.foldl_nil]
  · norm_num [obsNear, roverRadius, sqrt_1089, sqrt_400]

/-- Claim C1 amended: for a cache holding a single non-runnable obstacle,
when the proposed position is farther than the 0.001 degeneracy guard from
the obstacle center, the resolved position lies at distance at least
scale*0.85 + roverRadius from that center. -/
theorem non_penetration_single (obs : Obstacle) (p : ℝ × ℝ)
    (hrun : RUNNABLE_ROCK_SCALE ≤ obs.scale)
    (hdeg : Real.sqrt ((p.1 - obs.x) * (p.1 - obs.x) + (p.2 - obs.z) * (p.2 - obs.z)) > 0.001) :
    Real.sqrt
        (((resolveCollisions [obs] p).1 - obs.x) * ((resolveCollisions [obs] p).1 - obs.x) +
          ((resolveCollisions [obs] p).2 - obs.z) * ((resolveCollisions [obs] p).2 - obs.z)) ≥
      obs.scale * 0.85 + roverRadius := by
  have hres : resolveCollisions [obs] p = resolveObstacle p obs := rfl
  have hsqnn : 0 ≤ (p.1 - obs.x) * (p.1 - obs.x) + (p.2 - obs.z) * (p.2 - obs.z) :=
    add_nonneg (mul_self_nonneg _) (mul_self_nonneg _)
  have hmin : 0 < obs.scale * 0.85 + roverRadius := by
    have : (2.5 : ℝ) ≤ obs.scale := hrun
    unfold roverRadius
    nlinarith
  rw [hres]
  unfold resolveObstacle
  rw [if_neg (not_lt.mpr hrun)]
  by_cases h2 : (p.1 - obs.x) * (p.1 - obs.x) + (p.2 - obs.z) * (p.2 - obs.z) <
      (obs.scale * 0.85 + roverRadius) * (obs.scale * 0.85 + roverRadius)
  · rw [if_pos h2, if_pos hdeg]
    have hd0 : (0 : ℝ) <
        Real.sqrt ((p.1 - obs.x) * (p.1 - obs.x) + (p.2 - obs.z) * (p.2 - obs.z)) := by
      linarith
    have hdd : Real.sqrt ((p.1 - obs.x) * (p.1 - obs.x) + (p.2 - obs.z) * (p.2 - obs.z)) *
        Real.sqrt ((p.1 - obs.x) * (p.1 - obs.x) + (p.2 - obs.z) * (p.2 - obs.z)) =
        (p.1 - obs.x) * (p.1 - obs.x) + (p.2 - obs.z) * (p.2 - obs.z) :=
      Real.mul_self_sqrt hsqnn
    set d := Real.sqrt ((p.1 - obs.x) * (p.1 - obs.x) + (p.2 - obs.z) * (p.2 - obs.z)) with hd
    set m := obs.scale * 0.85 + roverRadius with hm
    have key : (obs.x + (p.1 - obs.x) / d * m - obs.x) * (obs.x + (p.1 - obs.x) / d * m - obs.x) +
        (obs.z + (p.2 - obs.z) / d * m - obs.z) * (obs.z + (p.2 - obs.z) / d * m - obs.z) =
        m * m := by
      have hdne : d ≠ 0 := ne_of_gt hd0
      field_simp
      nlinarith [hdd]
    rw [key, Real.sqrt_mul_self (le_of_lt hmin)]
  · rw [if_neg h2]
    calc obs.scale * 0.85 + roverRadius
        = Real.sqrt ((obs.scale * 0.85 + roverRadius) * (obs.scale * 0.85 + roverRadius)) :=
          (Real.sqrt_mul_self (le_of_lt hmin)).symm
      _ ≤ Real.sqrt ((p.1 - obs.x) * (p.1 - obs.x) + (p.2 - obs.z) * (p.2 - obs.z)) :=
          Real.sqrt_le_sqrt (not_lt.mp h2)

/-- Witness for the amended C1 at obsNear and the proposed position (1,0). -/
theorem non_penetration_single_witness :
    RUNNABLE_ROCK_SCALE ≤ obsNear.scale ∧
    Real.sqrt (((1 : ℝ) - obsNear.x) * ((1 : ℝ) - obsNear.x) +
        ((0 : ℝ) - obsNear.z) * ((0 : ℝ) - obsNear.z)) > 0.001 ∧
    Real.sqrt
        (((resolveCollisions [obsNear] (1, 0)).1 - obsNear.x) *
            ((resolveCollisions [obsNear] (1, 0)).1 - obsNear.x) +
          ((resolveCollisions [obsNear] (1, 0)).2 - obsNear.z) *
            ((resolveCollisions [obsNear] (1, 0)).2 - obsNear.z)) ≥
      obsNear.scale * 0.85 + roverRadius := by
  have h1 : RUNNABLE_ROCK_SCALE ≤ obsNear.scale := by norm_num [RUNNABLE_ROCK_SCALE, obsNear]
  have h2 : Real.sqrt (((1 : ℝ) - obsNear.x) * ((1 : ℝ) - obsNear.x) +
      ((0 : ℝ) - obsNear.z) * ((0 : ℝ) - obsNear.z)) > 0.001 := by
    norm_num [obsNear, Real.sqrt_one]
  exact ⟨h1, h2, non_penetration_single obsNear (1, 0) h1 h2⟩

/-! ## Suspension spring-damper (Rover.tsx wheel loop) -/

def maxTravel : ℝ := 0.4

def stiffness : ℝ := 120.0

def damping : ℝ := 20.0

/-- The clamp helper (THREE.MathUtils.clamp). -/
def clamp (v lo hi : ℝ) : ℝ := max lo (min hi v)

/-- The linear-interpolation helper (THREE.MathUtils.lerp). -/
def lerp (a b t : ℝ) : ℝ := a + (b - a) * t

/-- The semi-implicit Euler step of one wheel's spring-damper, before the
travel clamp: (newY, newVelocity). -/
def suspensionIntegrate (neutralY targetLocalY currentY velocity dt : ℝ) : ℝ × ℝ :=
  let clampedTargetY := clamp targetLocalY (neutralY - maxTravel) (neutralY + maxTravel)
  let displacement := currentY - clampedTargetY
  let acceleration := -stiffness * displacement - damping * velocity
  let newVelocity := velocity + acceleration * dt
  (currentY + newVelocity * dt, newVelocity)

/-- One wheel's full suspension update: integration, then the hard travel
clamp with the spring velocity zeroed on clamp. -/
def suspensionUpdate (neutralY targetLocalY currentY velocity dt : ℝ) : ℝ × ℝ :=
  if (suspensionIntegrate neutralY targetLocalY currentY velocity dt).1 <
      neutralY - maxTravel then (neutralY - maxTravel, 0)
  else if (suspensionIntegrate neutralY targetLocalY currentY velocity dt).1 >
      neutralY + maxTravel then (neutralY + maxTravel, 0)
  else suspensionIntegrate neutralY targetLocalY currentY velocity dt

/-- Claim C3: after every tick's suspension update the wheel offset lies in
[neutralY - maxTravel, neutralY + maxTravel] for any terrain target, and an
integration result beyond a bound is clamped to that bound with the spring
velocity set to zero. -/
theorem suspension_travel_bound (neutralY targetLocalY currentY velocity dt : ℝ) :
    (neutralY - maxTravel ≤ (suspensionUpdate neutralY targetLocalY currentY velocity dt).1 ∧
     (suspensionUpdate neutralY targetLocalY currentY velocity dt).1 ≤ neutralY + maxTravel) ∧
    ((suspensionIntegrate neutralY targetLocalY currentY velocity dt).1 < neutralY - maxTravel →
      suspensionUpdate neutralY targetLocalY currentY velocity dt = (neutralY - maxTravel, 0)) ∧
    ((suspensionIntegrate neutralY targetLocalY currentY velocity dt).1 > neutralY + maxTravel →
      suspensionUpdate neutralY targetLocalY currentY velocity dt = (neutralY + maxTravel, 0)) := by
  have hmt : (0 : ℝ) < maxTravel := by norm_num [maxTravel]
  unfold suspensionUpdate
  split_ifs with h1 h2
  · refine ⟨⟨le_refl _, ?_⟩, fun _ => rfl, fun h => absurd h (not_lt.mpr ?_)⟩
    · show neutralY - maxTravel ≤ neutralY + maxTravel
      linarith
    · show (suspensionIntegrate neutralY targetLocalY currentY velocity dt).1 ≤
        neutralY + maxTravel
      linarith
  · refine ⟨⟨?_, le_refl _⟩, fun h => absurd h h1, fun _ => rfl⟩
    show neutralY - maxTravel ≤ neutralY + maxTravel
    linarith
  · exact ⟨⟨not_lt.mp h1, not_lt.mp h2⟩, fun h => absurd h h1, fun h => absurd h h2⟩

/-! ## Steering cost search (Rover.tsx raycast block) -/

def RAY_COUNT : ℕ := 35

def SAMPLES : ℕ := 10

def FOV : ℝ := Real.pi * 1.3

/-- The state the steering cost search reads. -/
structure SteerParams where
  posX : ℝ
  posY : ℝ
  posZ : ℝ
  yaw : ℝ
  speed : ℝ
  steerAngle : ℝ
  desiredHeading : ℝ
  headingWeight : ℝ
  coverTargetId : Option (ℤ × ℤ × ℕ)
  obstacles : List Obstacle

/-- Whether an obstacle is the active cover target (skipped by the search). -/
def isCoverId (t : Option (ℤ × ℤ × ℕ)) (oid : ℤ × ℤ × ℕ) : Prop :=
  match t with
  | some tid => oid = tid
  | none => False

/-- The i-th candidate heading offset, spanning the field of view. -/
def candidateAngle (i : ℕ) : ℝ :=
  lerp (-(FOV / 2)) (FOV / 2) ((i : ℝ) / ((RAY_COUNT : ℝ) - 1))

/-- The accumulated penalty of one candidate ray: obstacle proximity and
slope penalties over SAMPLES points marched up to the speed-scaled
lookahead. -/
def rayPenalty (p : SteerParams) (angleOffset : ℝ) : ℝ :=
  let rayYaw := p.yaw + angleOffset
  let dirX := -Real.sin rayYaw
  let dirZ := -Real.cos rayYaw
  let dynamicLookAhead := 12.0 + |p.speed| * 3.0
  (((List.range SAMPLES).map (fun s => s + 1)).foldl (fun st (s : ℕ) =>
    let dist := ((s : ℝ) / (SAMPLES : ℝ)) * dynamicLookAhead
    let px := p.posX + dirX * dist
    let pz := p.posZ + dirZ * dist
    let pen1 := p.obstacles.foldl (fun pen obs =>
      if isCoverId p.coverTargetId obs.id then pen
      else if obs.scale < RUNNABLE_ROCK_SCALE then pen
      else
        let dx := px - obs.x
        let dz := pz - obs.z
        let distSq := dx * dx + dz * dz
        let safeR := obs.radius * 1.2
        if distSq < safeR * safeR then
          let d := Real.sqrt distSq
          let proximity := safeR - d
          let angleWeight := 1.0 + max 0 (Real.cos angleOffset * 1.5)
          pen + proximity ^ 2 * 8000.0 * angleWeight
        else pen) st.1
    let h := getBaseTerrainHeight px pz
    let slope := (h - st.2) / (dynamicLookAhead / (SAMPLES : ℝ))
    let pen2 := if |slope| > 0.65 then pen1 + |slope| * 1000.0 else pen1
    (pen2, h)) ((0 : ℝ), p.posY)).1

/-- The total cost of the i-th candidate heading. -/
def candidateCost (p : SteerParams) (i : ℕ) : ℝ :=
  |candidateAngle i - p.desiredHeading| * p.headingWeight +
    |candidateAngle i - p.steerAngle| * 0.5 +
    |candidateAngle i| * 0.2 +
    rayPenalty p (candidateAngle i)

/-- The running state of the argmin loop: best (cost, steer offset), with
none standing for the initial Infinity, and the all-blocked flag. -/
structure SearchAcc where
  best : Option (ℝ × ℝ)
  allBlocked : Prop

/-- One iteration of the candidate loop. -/
def searchStep (p : SteerParams) (acc : SearchAcc) (i : ℕ) : SearchAcc :=
  let cost := candidateCost p i
  let blocked := acc.allBlocked ∧ ¬ (rayPenalty p (candidateAngle i) < 100)
  match acc.best with
  | none => ⟨some (cost, candidateAngle i), blocked⟩
  | some (bc, bo) =>
      if cost < bc then ⟨some (cost, candidateAngle i), blocked⟩ else ⟨some (bc, bo), blocked⟩

/-- The full steering cost search over the RAY_COUNT candidates. -/
def steeringSearch (p : SteerParams) : SearchAcc :=
  (List.range RAY_COUNT).foldl (searchStep p) ⟨none, True⟩

lemma searchStep_foldl_some (p : SteerParams) (l : List ℕ) :
    ∀ (bc bo : ℝ) (A : Prop),
      ∃ bc' bo', (l.foldl (searchStep p) ⟨some (bc, bo), A⟩).best = some (bc', bo') ∧
        bc' ≤ bc ∧ (∀ j ∈ l, bc' ≤ candidateCost p j) ∧
        ((bc' = bc ∧ bo' = bo) ∨ ∃ j ∈ l, bc' = candidateCost p j ∧ bo' = candidateAngle j) := by
  induction l with
  | nil =>
    intro bc bo A
    exact ⟨bc, bo, rfl, le_refl _, by simp, Or.inl ⟨rfl, rfl⟩⟩
  | cons i l ih =>
    intro bc bo A
    rw [List.foldl_cons]
    by_cases hc : candidateCost p i < bc
    · have hstep : searchStep p ⟨some (bc, bo), A⟩ i =
          ⟨some (candidateCost p i, candidateAngle i),
            A ∧ ¬ (rayPenalty p (candidateAngle i) < 100)⟩ := by
        unfold searchStep
        dsimp only
        rw [if_pos hc]
      rw [hstep]
      obtain ⟨bc', bo', hfold, hle, hall, hach⟩ := ih (candidateCost p i) (candidateAngle i) _
      refine ⟨bc', bo', hfold, by linarith, ?_, ?_⟩
      · intro j hj
        rcases List.mem_cons.mp hj with rfl | hj
        · exact hle
        · exact hall j hj
      · rcases hach with ⟨h1, h2⟩ | ⟨j, hj, hcost, hang⟩
        · exact Or.inr ⟨i, List.mem_cons_self i l, h1, h2⟩
        · exact Or.inr ⟨j, List.mem_cons_of_mem _ hj, hcost, hang⟩
    · have hstep : searchStep p ⟨some (bc, bo), A⟩ i =
          ⟨some (bc, bo), A ∧ ¬ (rayPenalty p (candidateAngle i) < 100)⟩ := by
        unfold searchStep
        dsimp only
        rw [if_neg hc]
      rw [hstep]
      obtain ⟨bc', bo', hfold, hle, hall, hach⟩ := ih bc bo _
      refine ⟨bc', bo', hfold, hle, ?_, ?_⟩
      · intro j hj
        rcases List.mem_cons.mp hj with rfl | hj
        · linarith [not_lt.mp hc]
        · exact hall j hj
      · rcases hach with h | ⟨j, hj, hcost, hang⟩
        · exact Or.inl h
        · exact Or.inr ⟨j, List.mem_cons_of_mem _ hj, hcost, hang⟩

/-- Claim C4: the steering search's selected candidate (the argmin kept as
bestCost/bestSteerOffset, before clamping) is one of the RAY_COUNT evaluated
candidates and its total cost is at most the cost of every candidate
evaluated that tick. -/
theorem steering_search_optimal (p : SteerParams) (i : ℕ) (hi : i < RAY_COUNT) :
    ∃ bc bo, (steeringSearch p).best = some (bc, bo) ∧
      (∃ j, j < RAY_COUNT ∧ bc = candidateCost p j ∧ bo = candidateAngle j) ∧
      bc ≤ candidateCost p i := by
  unfold steeringSearch
  rw [show RAY_COUNT = 34 + 1 from rfl, List.range_succ_eq_map, List.foldl_cons]
  have hstep0 : searchStep p ⟨none, True⟩ 0 =
      ⟨some (candidateCost p 0, candidateAngle 0),
        True ∧ ¬ (rayPenalty p (candidateAngle 0) < 100)⟩ := rfl
  rw [hstep0]
  obtain ⟨bc, bo, hfold, hle, hall, hach⟩ :=
    searchStep_foldl_some p ((List.range 34).map Nat.succ) (candidateCost p 0)
      (candidateAngle 0) _
  refine ⟨bc, bo, hfold, ?_, ?_⟩
  · rcases hach with ⟨h1, h2⟩ | ⟨j, hj, h1, h2⟩
    · exact ⟨0, by norm_num [RAY_COUNT], h1, h2⟩
    · obtain ⟨k, hk, rfl⟩ := List.mem_map.mp hj
      have hk34 : k < 34 := List.mem_range.mp hk
      exact ⟨Nat.succ k, by omega, h1, h2⟩
  · rcases Nat.eq_zero_or_pos i with rfl | hpos
    · exact hle
    · refine hall i (List.mem_map.mpr ⟨i - 1, List.mem_range.mpr ?_, ?_⟩)
      · have : i < 35 := hi
        omega
      · exact Nat.succ_pred_eq_of_pos hpos

/-- A concrete parameter block for the C4 witness. -/
def steerParams0 : SteerParams := ⟨0, 0, 0, 0, 0, 0, 0, 3.0, none, []⟩

/-- Witness for C4 at concrete parameters and candidate index 0. -/
theorem steering_search_optimal_witness :
    0 < RAY_COUNT ∧
    ∃ bc bo, (steeringSearch steerParams0).best = some (bc, bo) ∧
      (∃ j, j < RAY_COUNT ∧ bc = candidateCost steerParams0 j ∧ bo = candidateAngle j) ∧
      bc ≤ candidateCost steerParams0 0 :=
  ⟨by norm_num [RAY_COUNT],
   steering_search_optimal steerParams0 0 (by norm_num [RAY_COUNT])⟩

/-! ## Hit handler (Rover.tsx, the `hit` method) -/

structure Vec3 where
  x : ℝ
  y : ℝ
  z : ℝ

/-- The agent state the hit handler touches. -/
structure HitState where
  isUnderCover : Bool
  retractionT : ℝ
  shakePos : Vec3
  shakeRot : Vec3
  knockbackVel : Vec3
  damageCount : ℕ

/-- The externally invoked hit notification; rnd1..rnd3 are the Math.random
draws for the shake rotation. -/
def hitUpdate (st : HitState) (impactVelocity : Vec3) (rnd1 rnd2 rnd3 : ℝ) : HitState :=
  if st.isUnderCover ∧ st.retractionT > 0.8 then
    { st with shakePos := ⟨st.shakePos.x + 0.2, st.shakePos.y + 0.2, st.shakePos.z + 0.2⟩ }
  else
    { st with
      knockbackVel := ⟨impactVelocity.x, 0, impactVelocity.z⟩
      shakePos := ⟨st.shakePos.x + 0.5, st.shakePos.y + 0.5, st.shakePos.z + 0.5⟩
      shakeRot := ⟨rnd1 * 0.5, rnd2 * 0.5, rnd3 * 0.5⟩
      damageCount := min (st.damageCount + 1) 20 }

/-- Claim C8: a hit while under cover with retraction above 0.8 is absorbed
(knockback velocity and damage count unchanged, only a small shake added);
otherwise the impact's horizontal components become the knockback (vertical
zeroed) and the visible damage count increments by one, capped at 20. -/
theorem hit_absorbs_or_applies (st : HitState) (impactVelocity : Vec3) (rnd1 rnd2 rnd3 : ℝ) :
    ((st.isUnderCover ∧ st.retractionT > 0.8) →
      (hitUpdate st impactVelocity rnd1 rnd2 rnd3).knockbackVel = st.knockbackVel ∧
      (hitUpdate st impactVelocity rnd1 rnd2 rnd3).damageCount = st.damageCount ∧
      (hitUpdate st impactVelocity rnd1 rnd2 rnd3).shakePos =
        ⟨st.shakePos.x + 0.2, st.shakePos.y + 0.2, st.shakePos.z + 0.2⟩) ∧
    (¬ (st.isUnderCover ∧ st.retractionT > 0.8) →
      (hitUpdate st impactVelocity rnd1 rnd2 rnd3).knockbackVel =
        ⟨impactVelocity.x, 0, impactVelocity.z⟩ ∧
      (hitUpdate st impactVelocity rnd1 rnd2 rnd3).damageCount =
        (if st.damageCount < 20 then st.damageCount + 1 else 20)) := by
  constructor
  · intro h
    unfold hitUpdate
    rw [if_pos h]
    exact ⟨rfl, rfl, rfl⟩
  · intro h
    unfold hitUpdate
    rw [if_neg h]
    refine ⟨rfl, ?_⟩
    show min (st.damageCount + 1) 20 = _
    by_cases hd : st.damageCount < 20
    · rw [if_pos hd]
      omega
    · rw [if_neg hd]
      omega

/-! ## Navigation decision (Rover.tsx useFrame mode logic) -/

inductive MeteorPhase
  | IDLE
  | INCOMING
  | IMPACT
deriving DecidableEq

/-- The keyboard state read each tick. -/
structure ManualKeys where
  w : Bool
  a : Bool
  s : Bool
  d : Bool

/-- The external signals and toggles read each tick. -/
structure NavEnv where
  stormActive : Bool
  meteorPhase : MeteorPhase
  autoPilot : Bool
  keys : ManualKeys

/-- The cached cover target (terrain pockets carry no obstacle id). -/
structure CoverTarget where
  x : ℝ
  z : ℝ
  id : Option (ℤ × ℤ × ℕ)
  stopDist : ℝ

/-- The agent state the decision logic reads. -/
structure NavState where
  posX : ℝ
  posY : ℝ
  posZ : ℝ
  yaw : ℝ
  steerAngle : ℝ
  speed : ℝ
  retractionT : ℝ
  coverTarget : Option CoverTarget

/-- What the per-tick decision produces (targets, flags, updated cover target
and the directly overwritten speed). -/
structure NavDecision where
  targetSpeed : ℝ
  targetSteer : ℝ
  desiredHeading : ℝ
  headingWeight : ℝ
  stopping : Bool
  performRaycastAvoidance : Bool
  coverTarget : Option CoverTarget
  speed : ℝ

/-- JS Math.atan2. -/
def atan2 (y x : ℝ) : ℝ :=
  if x > 0 then Real.arctan (y / x)
  else if x < 0 then
    (if y ≥ 0 then Real.arctan (y / x) + Real.pi else Real.arctan (y / x) - Real.pi)
  else (if y > 0 then Real.pi / 2 else if y < 0 then -(Real.pi / 2) else 0)

/-- The two while loops normalizing the heading difference (subtract 2π while
above π, then add 2π while below -π), in closed form. -/
def wrapAngle (d : ℝ) : ℝ :=
  let d1 := if d > Real.pi then d - 2 * Real.pi * ((⌈(d - Real.pi) / (2 * Real.pi)⌉ : ℤ) : ℝ)
    else d
  if d1 < -Real.pi then d1 + 2 * Real.pi * ((⌈(-Real.pi - d1) / (2 * Real.pi)⌉ : ℤ) : ℝ)
  else d1

/-- The nearest-giant-obstacle scan of the seek-cover branch; the first
component is the best squared distance so far (none standing for Infinity). -/
def scanObstaclesForCover (obstacles : List Obstacle) (posX posZ : ℝ) :
    Option ℝ × Option CoverTarget :=
  obstacles.foldl (fun acc obs =>
    if obs.scale < 8.0 then acc
    else
      let dx := obs.x - posX
      let dz := obs.z - posZ
      let dSq := dx * dx + dz * dz
      if (match acc.1 with | none => True | some bd => dSq < bd) then
        (some dSq, some ⟨obs.x, obs.z, some obs.id, obs.scale * 1.5 + 1.5⟩)
      else acc)
    (none, none)

/-- The fallback terrain-pocket scan: an 11×11 grid of 10-unit-snapped points
within ±50 units, looking for elevation below -3, sharing the running best
distance. -/
def scanTerrainForCover (posX posZ : ℝ) (best : Option ℝ × Option CoverTarget) :
    Option ℝ × Option CoverTarget :=
  let snapX := ((⌊posX / 10⌋ : ℤ) : ℝ) * 10
  let snapZ := ((⌊posZ / 10⌋ : ℤ) : ℝ) * 10
  (List.range 11).foldl (fun acc1 kx =>
    (List.range 11).foldl (fun acc2 kz =>
      let wx := snapX + (-50 + 10 * (kx : ℝ))
      let wz := snapZ + (-50 + 10 * (kz : ℝ))
      let h := getBaseTerrainHeight wx wz
      if h < -3.0 then
        let dx := wx - posX
        let dz := wz - posZ
        let dSq := dx * dx + dz * dz
        if (match acc2.1 with | none => True | some bd => dSq < bd) then
          (some dSq, some ⟨wx, wz, none, 5.0⟩)
        else acc2
      else acc2) acc1) best

/-- The cover-target selection run once per seek-cover activation: nearest
giant obstacle, with the terrain fallback when none is within distance 30. -/
def selectCoverTarget (obstacles : List Obstacle) (posX posZ : ℝ) : Option CoverTarget :=
  let scan1 := scanObstaclesForCover obstacles posX posZ
  let scan2 :=
    if (match scan1.1 with | none => True | some bd => bd > 900) then
      scanTerrainForCover posX posZ scan1
    else scan1
  scan2.2

/-- The per-tick mode/targets decision of the useFrame body: manual override
first, then impact/storm/offline stop, then seek-cover, then wander or idle
stop. -/
def navDecide (env : NavEnv) (st : NavState) (obstacles : List Obstacle) : NavDecision :=
  let coverTarget0 := if env.meteorPhase = MeteorPhase.IDLE then none else st.coverTarget
  let isManualInput := env.keys.w || env.keys.a || env.keys.s || env.keys.d
  let isSystemsOffline := st.retractionT > 0.05
  if isManualInput then
    if isSystemsOffline then
      ⟨0, 0, 0, 3.0, false, false, coverTarget0, st.speed⟩
    else
      let throttle := (if env.keys.w then (1 : ℝ) else 0) + (if env.keys.s then -1 else 0)
      let steer := (if env.keys.a then (1 : ℝ) else 0) + (if env.keys.d then -1 else 0)
      ⟨throttle * 5.0, steer * 0.8, 0, 3.0, false, false, coverTarget0, st.speed⟩
  else if env.meteorPhase = MeteorPhase.IMPACT then
    ⟨0, 0, 0, 3.0, true, false, coverTarget0, st.speed⟩
  else if env.stormActive ∨ isSystemsOffline then
    ⟨0, 0, 0, 3.0, true, false, coverTarget0, st.speed⟩
  else if env.meteorPhase = MeteorPhase.INCOMING then
    match (match coverTarget0 with
           | some t => some t
           | none => selectCoverTarget obstacles st.posX st.posZ) with
    | some t =>
      let dx := t.x - st.posX
      let dz := t.z - st.posZ
      let dist := Real.sqrt (dx * dx + dz * dz)
      if dist < t.stopDist then
        ⟨0, 0, 0, 40.0, true, true, some t, 0⟩
      else
        ⟨10.0, 0, wrapAngle (atan2 (-dx) (-dz) - st.yaw), 40.0, false, true, some t, st.speed⟩
    | none => ⟨10.0, 0, 0, 40.0, false, true, none, st.speed⟩
  else if env.autoPilot then
    ⟨2.0, 0, 0, 3.0, false, true, coverTarget0, st.speed⟩
  else
    ⟨0, 0, 0, 3.0, true, false, coverTarget0, st.speed⟩

/-- The per-tick speed smoothing: the stopping ramp toward 0, else the ramp
toward the target speed at the keyboard-dependent rate. -/
def smoothSpeed (speed targetSpeed delta : ℝ) (stopping : Bool) (wOrS : Bool) : ℝ :=
  if stopping then lerp speed 0 (delta * 2.0)
  else lerp speed targetSpeed (delta * (if wOrS then 3.0 else 2.0))

/-- Claim C5 amended: while the storm is active and no manual key is pressed,
the decision commands target speed 0 with the stopping ramp engaged and no
steering search, and each smoothing tick multiplies the speed by
(1 - 2*delta), so the commanded speed decays geometrically to 0 and remains 0
once there; manual keyboard input, however, preempts the storm stop. -/
theorem storm_stops_autonomous (env : NavEnv) (st : NavState) (obstacles : List Obstacle)
    (hstorm : env.stormActive = true)
    (hmanual : (env.keys.w || env.keys.a || env.keys.s || env.keys.d) = false) :
    (navDecide env st obstacles).targetSpeed = 0 ∧
    (navDecide env st obstacles).stopping = true ∧
    (navDecide env st obstacles).performRaycastAvoidance = false ∧
    ∀ speed delta : ℝ,
      smoothSpeed speed (navDecide env st obstacles).targetSpeed delta
          (navDecide env st obstacles).stopping (env.keys.w || env.keys.s) =
        speed * (1 - 2 * delta) := by
  have key : (navDecide env st obstacles).targetSpeed = 0 ∧
      (navDecide env st obstacles).stopping = true ∧
      (navDecide env st obstacles).performRaycastAvoidance = false := by
    unfold navDecide
    dsimp only
    rw [hmanual, if_neg (show ¬ (false = true) by simp)]
    by_cases himp : env.meteorPhase = MeteorPhase.IMPACT
    · rw [if_pos himp]
      exact ⟨rfl, rfl, rfl⟩
    · rw [if_neg himp,
        if_pos (show env.stormActive = true ∨ st.retractionT > 0.05 from Or.inl hstorm)]
      exact ⟨rfl, rfl, rfl⟩
  refine ⟨key.1, key.2.1, key.2.2, ?_⟩
  intro speed delta
  rw [key.1, key.2.1]
  unfold smoothSpeed lerp
  rw [if_pos (show (true : Bool) = true from rfl)]
  ring

/-- Environment for the C5 counterexample: storm active, manual throttle key
held, autopilot off, panels extended. -/
def stormEnvManual : NavEnv := ⟨true, MeteorPhase.IDLE, false, ⟨true, false, false, false⟩⟩

/-- Agent state for the C5 counterexample: systems online, at rest. -/
def stormStateManual : NavState := ⟨0, 0, 0, 0, 0, 0, 0, none⟩

/-- Claim C5 counterexample: with stormActive = true but the manual throttle
key held while systems are online, the decision commands target speed 5.0
with no stopping ramp, and one smoothing tick at delta = 0.1 moves the speed
from 0 to 1.5 — the commanded speed neither decays to 0 nor stays there. -/
theorem storm_stops_counterexample :
    stormEnvManual.stormActive = true ∧
    (navDecide stormEnvManual stormStateManual []).targetSpeed = 5.0 ∧
    (navDecide stormEnvManual stormStateManual []).stopping = false ∧
    smoothSpeed 0 (navDecide stormEnvManual stormStateManual []).targetSpeed 0.1
        (navDecide stormEnvManual stormStateManual []).stopping
        (stormEnvManual.keys.w || stormEnvManual.keys.s) = 1.5 := by
  have hdec : navDecide stormEnvManual stormStateManual [] =
      ⟨5.0, 0, 0, 3.0, false, false, none, 0⟩ := by
    unfold navDecide stormEnvManual stormStateManual
    dsimp only
    rw [if_pos (show (true || false || false || false) = true from rfl),
      if_neg (show ¬ (0 : ℝ) > 0.05 by norm_num)]
    norm_num
  refine ⟨rfl, ?_, ?_, ?_⟩
  · rw [hdec]
  · rw [hdec]
  · rw [hdec]
    show smoothSpeed 0 5.0 0.1 false (stormEnvManual.keys.w || stormEnvManual.keys.s) = 1.5
    rw [show (stormEnvManual.keys.w || stormEnvManual.keys.s) = true from rfl]
    unfold smoothSpeed lerp
    rw [if_neg (show ¬ ((false : Bool) = true) by simp),
      if_pos (show (true : Bool) = true from rfl)]
    norm_num

/-- Environment for the amended-C5 witness: storm active, no keys pressed. -/
def stormEnvAuto : NavEnv := ⟨true, MeteorPhase.IDLE, true, ⟨false, false, false, false⟩⟩

/-- Witness for the amended C5 at a concrete storm environment and state. -/
theorem storm_stops_autonomous_witness :
    stormEnvAuto.stormActive = true ∧
    (stormEnvAuto.keys.w || stormEnvAuto.keys.a || stormEnvAuto.keys.s ||
        stormEnvAuto.keys.d) = false ∧
    ((navDecide stormEnvAuto stormStateManual []).targetSpeed = 0 ∧
     (navDecide stormEnvAuto stormStateManual []).stopping = true ∧
     (navDecide stormEnvAuto stormStateManual []).performRaycastAvoidance = false ∧
     ∀ speed delta : ℝ,
       smoothSpeed speed (navDecide stormEnvAuto stormStateManual []).targetSpeed delta
           (navDecide stormEnvAuto stormStateManual []).stopping
           (stormEnvAuto.keys.w || stormEnvAuto.keys.s) =
         speed * (1 - 2 * delta)) :=
  ⟨rfl, rfl, storm_stops_autonomous stormEnvAuto stormStateManual [] rfl rfl⟩

/-! ## Stuck detection and reverse recovery (Rover.tsx raycast block tail) -/

/-- The outputs of the stuck/recovery tail of the steering block. -/
structure StuckOut where
  stuckTimer : ℝ
  recoveryTimer : ℝ
  steerAngle : ℝ
  targetSteer : ℝ
  targetSpeed : ℝ

/-- The stuck/recovery tail of the every-third-frame steering block: timer
accumulation and decay, the recovery trigger with its random side draw, the
recovery outputs (reverse at -2.0, fixed-side steer, ignoring the cost
search), and the turn/cost speed throttle applied outside recovery.
`allBlocked`, `bestCost` and `bestSteerOffset` come from the cost search of
the same tick; `rndLeft` is the Math.random side draw. -/
def stuckRecoveryUpdate (stuckTimer recoveryTimer steerAngle speed targetSpeed0 delta
    bestCost bestSteerOffset : ℝ) (allBlocked : Prop) (stopping : Bool) (rndLeft : Bool) :
    StuckOut :=
  let isMoving := |speed| > 0.1
  let wantsToMove := |targetSpeed0| > 0.1
  let st1 := if wantsToMove ∧ (allBlocked ∨ (¬ isMoving ∧ recoveryTimer ≤ 0)) then
      stuckTimer + delta * 3 else max 0 (stuckTimer - delta * 3)
  let trig := st1 > 1.0 ∧ recoveryTimer ≤ 0
  let rec1 := if trig then 2.0 else recoveryTimer
  let sa1 := if trig then (if rndLeft then -1.0 else 1.0) else steerAngle
  let out : StuckOut :=
    if rec1 > 0 then ⟨0, rec1 - delta * 3, sa1, sa1, -2.0⟩
    else ⟨st1, rec1, sa1, clamp bestSteerOffset (-0.8) 0.8, targetSpeed0⟩
  if stopping = false ∧ out.recoveryTimer ≤ 0 then
    let turnBrake := max 0.3 (1.0 - |out.targetSteer| * 1.0)
    let sp1 := out.targetSpeed * turnBrake
    let sp2 := if bestCost > 2000 then sp1 * 0.3 else if bestCost > 500 then sp1 * 0.6
      else sp1
    ⟨out.stuckTimer, out.recoveryTimer, out.steerAngle, out.targetSteer, sp2⟩
  else out

/-- Claim C6: when the agent wants to move, every candidate is blocked, no
recovery is underway, and the stuck timer crosses 1.0 this update, that very
(throttled) update starts a recovery episode: timer reset, recovery timer
started at 2.0 (already counting down), reverse target speed -2.0 and a
randomly chosen fixed-side steer of ±1.0 ignoring the cost search; while an
episode is running the fixed steer is held and the timer counts down; once
the timer is no longer positive, the cost-search steering (the clamped best
offset) resumes. -/
theorem stuck_triggers_recovery (stuckTimer recoveryTimer steerAngle speed targetSpeed0 delta
    bestCost bestSteerOffset : ℝ) (allBlocked : Prop) (stopping : Bool) (rndLeft : Bool) :
    (|targetSpeed0| > 0.1 → allBlocked → recoveryTimer ≤ 0 → stuckTimer + delta * 3 > 1.0 →
      delta * 3 < 2 →
      stuckRecoveryUpdate stuckTimer recoveryTimer steerAngle speed targetSpeed0 delta
          bestCost bestSteerOffset allBlocked stopping rndLeft =
        ⟨0, 2.0 - delta * 3, if rndLeft then -1.0 else 1.0,
          if rndLeft then -1.0 else 1.0, -2.0⟩) ∧
    (recoveryTimer > 0 → recoveryTimer - delta * 3 > 0 →
      stuckRecoveryUpdate stuckTimer recoveryTimer steerAngle speed targetSpeed0 delta
          bestCost bestSteerOffset allBlocked stopping rndLeft =
        ⟨0, recoveryTimer - delta * 3, steerAngle, steerAngle, -2.0⟩) ∧
    (recoveryTimer ≤ 0 → stuckTimer + delta * 3 ≤ 1.0 → 0 ≤ delta →
      (stuckRecoveryUpdate stuckTimer recoveryTimer steerAngle speed targetSpeed0 delta
          bestCost bestSteerOffset allBlocked stopping rndLeft).targetSteer =
        clamp bestSteerOffset (-0.8) 0.8) := by
  refine ⟨?_, ?_, ?_⟩
  · intro hwant hblocked hrec hcross hsmall
    unfold stuckRecoveryUpdate
    dsimp only
    have hacc : |targetSpeed0| > 0.1 ∧ (allBlocked ∨ (¬ |speed| > 0.1 ∧ recoveryTimer ≤ 0)) :=
      ⟨hwant, Or.inl hblocked⟩
    rw [if_pos hacc]
    have htrig : stuckTimer + delta * 3 > 1.0 ∧ recoveryTimer ≤ 0 := ⟨hcross, hrec⟩
    rw [if_pos htrig, if_pos (show (2.0 : ℝ) > 0 by norm_num)]
    dsimp only
    rw [if_neg (show ¬ (stopping = false ∧ (2.0 : ℝ) - delta * 3 ≤ 0) from
      fun h => absurd h.2 (by push_neg; linarith))]
    rw [if_pos htrig]
  · intro hrec hrem
    unfold stuckRecoveryUpdate
    dsimp only
    have htrig : ¬ ((if |targetSpeed0| > 0.1 ∧ (allBlocked ∨ (¬ |speed| > 0.1 ∧ recoveryTimer ≤ 0)) then
        stuckTimer + delta * 3 else max 0 (stuckTimer - delta * 3)) > 1.0 ∧ recoveryTimer ≤ 0) :=
      fun h => absurd h.2 (not_le.mpr hrec)
    rw [if_neg htrig, if_pos (show recoveryTimer > 0 from hrec)]
    dsimp only
    rw [if_neg (show ¬ (stopping = false ∧ recoveryTimer - delta * 3 ≤ 0) from
      fun h => absurd h.2 (not_le.mpr hrem))]
    rw [if_neg htrig]
  · intro hrec hsmall hdelta
    unfold stuckRecoveryUpdate
    dsimp only
    have hst1 : (if |targetSpeed0| > 0.1 ∧ (allBlocked ∨ (¬ |speed| > 0.1 ∧ recoveryTimer ≤ 0)) then
        stuckTimer + delta * 3 else max 0 (stuckTimer - delta * 3)) ≤ 1.0 := by
      split_ifs with h
      · exact hsmall
      · exact max_le (by norm_num) (by linarith)
    have htrig : ¬ ((if |targetSpeed0| > 0.1 ∧ (allBlocked ∨ (¬ |speed| > 0.1 ∧ recoveryTimer ≤ 0)) then
        stuckTimer + delta * 3 else max 0 (stuckTimer - delta * 3)) > 1.0 ∧ recoveryTimer ≤ 0) :=
      fun h => absurd h.1 (not_lt.mpr hst1)
    rw [if_neg htrig, if_neg (show ¬ recoveryTimer > 0 from not_lt.mpr hrec)]
    dsimp only
    split_ifs <;> rfl

end MarsRover
